import Mathlib

/-!
Shallow embedding of `cac_ltv_analysis.py` (CAC-LTV Model Analysis for SaaS
Business Insights).  The script loads a table of customer records and derives:

* `churn_rate_adj` : the churn-rate column with exact zeros replaced by 0.0001,
* `ltv`            : per-customer lifetime value (arpu * gross_margin) / churn_rate_adj,
* `cac_by_channel` : mean marketing spend per acquisition channel,
* `ltv_by_channel` : mean LTV per acquisition channel,
* `ltv_cac`        : the merge of the two channel tables with an `ltv_cac_ratio` column,
* `cohort_month`   : string label `str(year) + "-" + str(month).zfill(2)`,
* `cohort_sizes`   : number of distinct customer ids per cohort,
* `retention_records` : for each cohort group, for month m = 0..12,
  `int(initial_customers * (1 - avg_churn) ** m)` where `avg_churn` is the mean
  of the group's raw churn rates and `initial_customers` the number of rows.

Python floats are modelled by exact rationals; Python `int()` truncation toward
zero is `ratTrunc`; Python `str()` on a natural number is `natStr`.
-/

namespace CacLtv

/-- One row of the input CSV (the columns the analysed computations read).
`churn_rate_adj` models the derived dataframe column of the same name: it is a
cell that the replace step (line 62 of the script) fills in. -/
structure CustomerRecord where
  customer_id : Nat
  acquisition_channel : String
  region : String
  year : Nat
  month : Nat
  arpu : ℚ
  gross_margin : ℚ
  churn_rate : ℚ
  churn_rate_adj : ℚ
  marketing_spend : ℚ
deriving DecidableEq

/-- The decimal digit character for `d < 10`, as Python prints it. -/
def digitChar (d : Nat) : Char := Char.ofNat (48 + d)

/-- Decimal digits of `n` (most significant first), fuel-driven so that the
kernel can evaluate it.  With `fuel > n` the fuel never runs out. -/
def natStrAux : Nat → Nat → List Char
  | 0, _ => []
  | fuel + 1, n =>
    if n < 10 then [digitChar n]
    else natStrAux fuel (n / 10) ++ [digitChar (n % 10)]

/-- Python `str(n)` for a natural number: decimal, no sign, no leading zeros. -/
def natStr (n : Nat) : String := String.mk (natStrAux (n + 1) n)

/-- Python `s.zfill(2)` for a sign-free string: pad on the left with `'0'`
up to length 2. -/
def zfill2 (s : String) : String :=
  if s.length < 2 then String.mk (List.replicate (2 - s.length) '0' ++ s.data) else s

/-- Mean of a list of rationals, as pandas `.mean()` (sum divided by count). -/
def mean (xs : List ℚ) : ℚ := xs.sum / (xs.length : ℚ)

/-- Line 57: `df.groupby("acquisition_channel")` keys — the distinct channel
values present in the table. -/
def channelKeys (df : List CustomerRecord) : List String :=
  (df.map (·.acquisition_channel)).dedup

/-- Line 57: mean marketing spend per acquisition channel (CAC table). -/
def cac_by_channel (df : List CustomerRecord) : List (String × ℚ) :=
  (channelKeys df).map fun ch =>
    (ch, mean ((df.filter fun r => r.acquisition_channel = ch).map (·.marketing_spend)))

/-- Line 62: `df["churn_rate_adj"] = df["churn_rate"].replace(0, 0.0001)` on
one row — only the `churn_rate_adj` cell is written. -/
def adjustRecord (r : CustomerRecord) : CustomerRecord :=
  { r with churn_rate_adj := if r.churn_rate = 0 then 0.0001 else r.churn_rate }

/-- Line 62 applied to the whole table. -/
def replaceZeroChurn (df : List CustomerRecord) : List CustomerRecord :=
  df.map adjustRecord

/-- Line 65: `df["ltv"] = (df["arpu"] * df["gross_margin"]) / df["churn_rate_adj"]`. -/
def ltv (r : CustomerRecord) : ℚ := r.arpu * r.gross_margin / r.churn_rate_adj

/-- Line 75: mean LTV per acquisition channel. -/
def ltv_by_channel (df : List CustomerRecord) : List (String × ℚ) :=
  (channelKeys df).map fun ch =>
    (ch, mean ((df.filter fun r => r.acquisition_channel = ch).map ltv))

/-- Lines 82-86: `pd.merge(ltv_by_channel, cac_by_channel, on="acquisition_channel")`
(inner join: each left row is paired with every right row sharing its key). -/
def mergeOnChannel (ltvT cacT : List (String × ℚ)) : List (String × ℚ × ℚ) :=
  ltvT.flatMap fun lr => (cacT.filter fun cr => cr.1 = lr.1).map fun cr => (lr.1, lr.2, cr.2)

/-- One row of the final channel table. -/
structure LtvCacRow where
  acquisition_channel : String
  ltv : ℚ
  marketing_spend : ℚ
  ltv_cac_ratio : ℚ
deriving DecidableEq

/-- Lines 82-89: the merged channel table with the
`ltv_cac_ratio = ltv / marketing_spend` column appended.  The LTV table is
built from the dataframe after the churn substitution (line 62 precedes it);
the CAC table reads `marketing_spend`, which the substitution never touches. -/
def ltv_cac (df : List CustomerRecord) : List LtvCacRow :=
  (mergeOnChannel (ltv_by_channel (replaceZeroChurn df)) (cac_by_channel df)).map
    fun r => ⟨r.1, r.2.1, r.2.2, r.2.1 / r.2.2⟩

/-- Line 98: `df["cohort_month"] = df["year"].astype(str) + "-" + df["month"].astype(str).str.zfill(2)`. -/
def cohort_month (r : CustomerRecord) : String :=
  natStr r.year ++ "-" ++ zfill2 (natStr r.month)

/-- Line 113: `df.groupby("cohort_month")` keys. -/
def cohortKeys (df : List CustomerRecord) : List String :=
  (df.map cohort_month).dedup

/-- Line 113: the group of rows belonging to cohort `k`. -/
def cohortGroup (df : List CustomerRecord) (k : String) : List CustomerRecord :=
  df.filter fun r => cohort_month r = k

/-- Lines 102-103: `df.groupby("cohort_month")["customer_id"].nunique()` —
number of distinct customer ids in cohort `k`. -/
def cohort_sizes (df : List CustomerRecord) (k : String) : Nat :=
  ((cohortGroup df k).map (·.customer_id)).dedup.length

/-- Line 116: `group["churn_rate"].mean()` — the mean of the RAW churn rates. -/
def avg_churn (g : List CustomerRecord) : ℚ := mean (g.map (·.churn_rate))

/-- Python `int()` on a rational: truncation toward zero. -/
def ratTrunc (q : ℚ) : ℤ := if 0 ≤ q then ⌊q⌋ else ⌈q⌉

/-- One simulated retention point (one appended dict of lines 123-127). -/
structure CohortRetentionPoint where
  cohort_month : String
  months_since_acquisition : Nat
  customers_remaining : ℤ
deriving DecidableEq

/-- Lines 114-127 for one cohort group: months 0..12, with
`retention_rate = (1 - avg_churn) ** month` and
`retained_customers = int(initial_customers * retention_rate)`. -/
def retentionCurve (k : String) (g : List CustomerRecord) : List CohortRetentionPoint :=
  (List.range 13).map fun m =>
    { cohort_month := k
      months_since_acquisition := m
      customers_remaining := ratTrunc ((g.length : ℚ) * (1 - avg_churn g) ^ m) }

/-- Lines 111-127: the full `retention_records` list, one curve per cohort. -/
def retention_records (df : List CustomerRecord) : List CohortRetentionPoint :=
  (cohortKeys df).flatMap fun k => retentionCurve k (cohortGroup df k)

/-! ### Basic facts about `ratTrunc`, `mean` and membership in `retention_records` -/

theorem ratTrunc_eq_floor {q : ℚ} (h : 0 ≤ q) : ratTrunc q = ⌊q⌋ := if_pos h

theorem ratTrunc_natCast (n : ℕ) : ratTrunc (n : ℚ) = n := by
  rw [ratTrunc_eq_floor (by positivity), Int.floor_natCast]

theorem ratTrunc_mono {a b : ℚ} (ha : 0 ≤ a) (hab : a ≤ b) :
    ratTrunc a ≤ ratTrunc b := by
  rw [ratTrunc_eq_floor ha, ratTrunc_eq_floor (ha.trans hab)]
  exact Int.floor_le_floor hab

theorem mean_nonneg {xs : List ℚ} (h : ∀ x ∈ xs, 0 ≤ x) : 0 ≤ mean xs :=
  div_nonneg (List.sum_nonneg h) (by positivity)

theorem mean_le_one {xs : List ℚ} (h : ∀ x ∈ xs, x ≤ 1) : mean xs ≤ 1 := by
  rcases eq_or_ne xs [] with rfl | hne
  · simp [mean]
  · have hlen : (0 : ℚ) < (xs.length : ℚ) := by
      have := List.length_pos.mpr hne
      exact_mod_cast this
    rw [mean, div_le_one hlen]
    calc xs.sum ≤ xs.length • (1 : ℚ) := List.sum_le_card_nsmul _ 1 h
      _ = (xs.length : ℚ) := by simp

theorem cohortGroup_ne_nil {df : List CustomerRecord} {k : String}
    (hk : k ∈ cohortKeys df) : cohortGroup df k ≠ [] := by
  rcases List.mem_map.mp (List.mem_dedup.mp hk) with ⟨r, hr, hrk⟩
  intro hnil
  have : r ∈ cohortGroup df k := by
    simp only [cohortGroup, List.mem_filter, decide_eq_true_eq]
    exact ⟨hr, hrk⟩
  simp [hnil] at this

theorem avg_churn_nonneg {g : List CustomerRecord}
    (h : ∀ r ∈ g, 0 ≤ r.churn_rate) : 0 ≤ avg_churn g := by
  refine mean_nonneg ?_
  intro x hx
  rcases List.mem_map.mp hx with ⟨r, hr, rfl⟩
  exact h r hr

theorem avg_churn_le_one {g : List CustomerRecord}
    (h : ∀ r ∈ g, r.churn_rate ≤ 1) : avg_churn g ≤ 1 := by
  refine mean_le_one ?_
  intro x hx
  rcases List.mem_map.mp hx with ⟨r, hr, rfl⟩
  exact h r hr

/-- Every list element of `retention_records` is the decay-formula point of its
own cohort and month, and its month lies in `0..12`. -/
theorem retention_mem_spec {df : List CustomerRecord} {p : CohortRetentionPoint}
    (hp : p ∈ retention_records df) :
    p.cohort_month ∈ cohortKeys df ∧ p.months_since_acquisition < 13 ∧
      p.customers_remaining =
        ratTrunc (((cohortGroup df p.cohort_month).length : ℚ) *
          (1 - avg_churn (cohortGroup df p.cohort_month)) ^ p.months_since_acquisition) := by
  rcases List.mem_flatMap.mp hp with ⟨k, hk, hpk⟩
  rcases List.mem_map.mp hpk with ⟨m, hm, rfl⟩
  exact ⟨hk, List.mem_range.mp hm, rfl⟩

/-- Conversely, each cohort key and month `m < 13` contributes its
decay-formula point to `retention_records`. -/
theorem retention_point_mem (df : List CustomerRecord) (k : String) (m : ℕ)
    (hk : k ∈ cohortKeys df) (hm : m < 13) :
    ({ cohort_month := k, months_since_acquisition := m,
       customers_remaining :=
         ratTrunc (((cohortGroup df k).length : ℚ) *
           (1 - avg_churn (cohortGroup df k)) ^ m) } : CohortRetentionPoint) ∈
      retention_records df := by
  refine List.mem_flatMap.mpr ⟨k, hk, ?_⟩
  exact List.mem_map.mpr ⟨m, List.mem_range.mpr hm, rfl⟩

/-! ### Concrete tables used to instantiate the theorems -/

/-- A record of the spec's worked example: cohort `"2023-01"`, churn rate 0.10. -/
def rec2023 : CustomerRecord :=
  { customer_id := 1, acquisition_channel := "Organic Search", region := "North America",
    year := 2023, month := 1, arpu := 163, gross_margin := 4/5,
    churn_rate := 1/10, churn_rate_adj := 0, marketing_spend := 100 }

/-- The spec's worked example cohort: 100 identical records with churn 0.10. -/
def exDf100 : List CustomerRecord := List.replicate 100 rec2023

theorem dedup_replicate {α : Type} [DecidableEq α] (n : ℕ) (a : α) :
    (List.replicate (n + 1) a).dedup = [a] := by
  induction n with
  | zero => simp
  | succ n ih =>
      rw [List.replicate_succ, List.dedup_cons_of_mem (by simp), ih]

theorem cohortKeys_exDf100 : cohortKeys exDf100 = ["2023-01"] := by
  have h : cohort_month rec2023 = "2023-01" := by decide
  simp [cohortKeys, exDf100, List.map_replicate, h, dedup_replicate]

theorem cohortGroup_exDf100 : cohortGroup exDf100 "2023-01" = exDf100 := by
  apply List.filter_eq_self.mpr
  intro r hr
  rw [List.eq_of_mem_replicate hr]
  decide

theorem length_exDf100 : (cohortGroup exDf100 "2023-01").length = 100 := by
  rw [cohortGroup_exDf100]; simp [exDf100]

theorem avg_churn_exDf100 : avg_churn (cohortGroup exDf100 "2023-01") = 1/10 := by
  rw [cohortGroup_exDf100]
  simp only [avg_churn, mean, exDf100, List.map_replicate, List.sum_replicate,
    List.length_replicate]
  norm_num [rec2023]

/-! ### Claims C1 and C2 -/

/-- **C1.** Every point emitted by the retention simulator carries
`customers_remaining = int(n * (1 - c) ^ m)` — truncation toward zero — where
`n` is the cohort's record count, `c` its mean raw churn rate, and the month
`m` lies in `0..12`; when the mean churn rate is at most 1 the truncation
agrees with the floor. -/
theorem C1_retention_formula (df : List CustomerRecord) (p : CohortRetentionPoint)
    (hp : p ∈ retention_records df) :
    p.months_since_acquisition ≤ 12 ∧
    p.customers_remaining =
      ratTrunc (((cohortGroup df p.cohort_month).length : ℚ) *
        (1 - avg_churn (cohortGroup df p.cohort_month)) ^ p.months_since_acquisition) ∧
    (avg_churn (cohortGroup df p.cohort_month) ≤ 1 →
      p.customers_remaining =
        ⌊((cohortGroup df p.cohort_month).length : ℚ) *
          (1 - avg_churn (cohortGroup df p.cohort_month)) ^ p.months_since_acquisition⌋) := by
  obtain ⟨hk, hm, hval⟩ := retention_mem_spec hp
  refine ⟨Nat.lt_succ_iff.mp hm, hval, fun hc => ?_⟩
  rw [hval, ratTrunc_eq_floor]
  have h1 : (0:ℚ) ≤ 1 - avg_churn (cohortGroup df p.cohort_month) := by linarith
  positivity

/-- The spec's worked example: a cohort of 100 records with mean churn 0.10
retains `int(100 * 0.9 ** 3) = 72` customers at month 3. -/
theorem C1_retention_formula_witness :
    (3 : ℕ) ≤ 12 ∧
    ((⟨"2023-01", 3, 72⟩ : CohortRetentionPoint).customers_remaining =
      ratTrunc (((cohortGroup exDf100 "2023-01").length : ℚ) *
        (1 - avg_churn (cohortGroup exDf100 "2023-01")) ^ 3)) ∧
    (avg_churn (cohortGroup exDf100 "2023-01") ≤ 1 →
      (⟨"2023-01", 3, 72⟩ : CohortRetentionPoint).customers_remaining =
        ⌊((cohortGroup exDf100 "2023-01").length : ℚ) *
          (1 - avg_churn (cohortGroup exDf100 "2023-01")) ^ 3⌋) := by
  have hval : ratTrunc (((cohortGroup exDf100 "2023-01").length : ℚ) *
      (1 - avg_churn (cohortGroup exDf100 "2023-01")) ^ 3) = 72 := by
    rw [length_exDf100, avg_churn_exDf100, ratTrunc_eq_floor (by norm_num)]
    norm_num
  have hmem : (⟨"2023-01", 3, 72⟩ : CohortRetentionPoint) ∈ retention_records exDf100 := by
    have h := retention_point_mem exDf100 "2023-01" 3
      (by rw [cohortKeys_exDf100]; simp) (by norm_num)
    rwa [hval] at h
  exact C1_retention_formula exDf100 _ hmem

/-- **C2.** For every cohort of every table, the simulator emits a month-0
point whose retention count is the cohort's record count, and every emitted
month-0 point carries its own cohort's record count — no hypothesis on the
churn rates. -/
theorem C2_month0_initial (df : List CustomerRecord) (k : String)
    (hk : k ∈ cohortKeys df) :
    ({ cohort_month := k, months_since_acquisition := 0,
       customers_remaining := ((cohortGroup df k).length : ℤ) } :
        CohortRetentionPoint) ∈ retention_records df ∧
    ∀ p ∈ retention_records df, p.months_since_acquisition = 0 →
      p.customers_remaining = ((cohortGroup df p.cohort_month).length : ℤ) := by
  constructor
  · have h := retention_point_mem df k 0 hk (by norm_num)
    simpa [ratTrunc_natCast] using h
  · intro p hp h0
    obtain ⟨_, _, hval⟩ := retention_mem_spec hp
    rw [hval, h0, pow_zero, mul_one, ratTrunc_natCast]

/-- Witness for C2 on the 100-record example table. -/
theorem C2_month0_initial_witness :
    ({ cohort_month := "2023-01", months_since_acquisition := 0,
       customers_remaining := ((cohortGroup exDf100 "2023-01").length : ℤ) } :
        CohortRetentionPoint) ∈ retention_records exDf100 ∧
    ∀ p ∈ retention_records exDf100, p.months_since_acquisition = 0 →
      p.customers_remaining = ((cohortGroup exDf100 p.cohort_month).length : ℤ) :=
  C2_month0_initial exDf100 "2023-01" (by rw [cohortKeys_exDf100]; simp)

/-! ### Claims C4 and C5 -/

/-- A one-record cohort with churn rate exactly 0 (cohort `"2022-05"`). -/
def recNoChurn : CustomerRecord :=
  { customer_id := 7, acquisition_channel := "Meta Ads", region := "Europe",
    year := 2022, month := 5, arpu := 170, gross_margin := 1,
    churn_rate := 0, churn_rate_adj := 0, marketing_spend := 120 }

def exDfNoChurn : List CustomerRecord := [recNoChurn]

theorem cohortGroup_exDfNoChurn : cohortGroup exDfNoChurn "2022-05" = exDfNoChurn := by
  apply List.filter_eq_self.mpr
  intro r hr
  rw [List.mem_singleton.mp hr]
  decide

theorem avg_churn_exDfNoChurn : avg_churn (cohortGroup exDfNoChurn "2022-05") = 0 := by
  rw [cohortGroup_exDfNoChurn]
  simp [avg_churn, mean, exDfNoChurn, recNoChurn]

/-- A one-record cohort with churn rate exactly 1 (cohort `"2021-12"`). -/
def recFullChurn : CustomerRecord :=
  { customer_id := 8, acquisition_channel := "Google Ads", region := "Asia",
    year := 2021, month := 12, arpu := 165, gross_margin := 1,
    churn_rate := 1, churn_rate_adj := 0, marketing_spend := 130 }

def exDfFullChurn : List CustomerRecord := [recFullChurn]

theorem cohortGroup_exDfFullChurn : cohortGroup exDfFullChurn "2021-12" = exDfFullChurn := by
  apply List.filter_eq_self.mpr
  intro r hr
  rw [List.mem_singleton.mp hr]
  decide

theorem avg_churn_exDfFullChurn : avg_churn (cohortGroup exDfFullChurn "2021-12") = 1 := by
  rw [cohortGroup_exDfFullChurn]
  simp [avg_churn, mean, exDfFullChurn, recFullChurn]

/-- **C4.** A cohort whose mean churn rate is exactly 0 is emitted with the
constant retention count `initial record count` at every month `0..12`. -/
theorem C4_zero_churn_constant (df : List CustomerRecord) (k : String)
    (hk : k ∈ cohortKeys df) (hc : avg_churn (cohortGroup df k) = 0) :
    (∀ m, m ≤ 12 →
      ({ cohort_month := k, months_since_acquisition := m,
         customers_remaining := ((cohortGroup df k).length : ℤ) } :
          CohortRetentionPoint) ∈ retention_records df) ∧
    ∀ p ∈ retention_records df, p.cohort_month = k →
      p.customers_remaining = ((cohortGroup df k).length : ℤ) := by
  constructor
  · intro m hm
    have h := retention_point_mem df k m hk (by omega)
    simpa [hc, ratTrunc_natCast] using h
  · intro p hp hpk
    obtain ⟨_, _, hval⟩ := retention_mem_spec hp
    rw [hval, hpk, hc]
    simp [ratTrunc_natCast]

/-- Witness for C4 on a concrete one-record zero-churn table. -/
theorem C4_zero_churn_constant_witness :
    (∀ m, m ≤ 12 →
      ({ cohort_month := "2022-05", months_since_acquisition := m,
         customers_remaining := ((cohortGroup exDfNoChurn "2022-05").length : ℤ) } :
          CohortRetentionPoint) ∈ retention_records exDfNoChurn) ∧
    ∀ p ∈ retention_records exDfNoChurn, p.cohort_month = "2022-05" →
      p.customers_remaining = ((cohortGroup exDfNoChurn "2022-05").length : ℤ) :=
  C4_zero_churn_constant exDfNoChurn "2022-05" (by decide) avg_churn_exDfNoChurn

/-- **C5.** A cohort whose mean churn rate is exactly 1 is emitted with
retention count 0 at every month `1..12`, while its month-0 count is still the
initial record count. -/
theorem C5_full_churn_collapse (df : List CustomerRecord) (k : String)
    (hk : k ∈ cohortKeys df) (hc : avg_churn (cohortGroup df k) = 1) :
    ({ cohort_month := k, months_since_acquisition := 0,
       customers_remaining := ((cohortGroup df k).length : ℤ) } :
        CohortRetentionPoint) ∈ retention_records df ∧
    (∀ m, 1 ≤ m → m ≤ 12 →
      ({ cohort_month := k, months_since_acquisition := m,
         customers_remaining := 0 } : CohortRetentionPoint) ∈ retention_records df) ∧
    ∀ p ∈ retention_records df, p.cohort_month = k →
      (p.months_since_acquisition = 0 →
        p.customers_remaining = ((cohortGroup df k).length : ℤ)) ∧
      (1 ≤ p.months_since_acquisition → p.customers_remaining = 0) := by
  refine ⟨?_, ?_, ?_⟩
  · have h := retention_point_mem df k 0 hk (by norm_num)
    simpa [ratTrunc_natCast] using h
  · intro m hm1 hm12
    have h := retention_point_mem df k m hk (by omega)
    have hz : (1 - avg_churn (cohortGroup df k)) ^ m = 0 := by
      rw [hc]
      simp [zero_pow (by omega : m ≠ 0)]
    rw [hz, mul_zero] at h
    simpa [ratTrunc_eq_floor le_rfl] using h
  · intro p hp hpk
    obtain ⟨_, _, hval⟩ := retention_mem_spec hp
    constructor
    · intro h0
      rw [hval, hpk, h0, pow_zero, mul_one, ratTrunc_natCast]
    · intro h1
      rw [hval, hpk, hc]
      have : (1 - (1:ℚ)) ^ p.months_since_acquisition = 0 := by
        simp [zero_pow (by omega : p.months_since_acquisition ≠ 0)]
      rw [this, mul_zero, ratTrunc_eq_floor le_rfl, Int.floor_zero]

/-- Witness for C5 on a concrete one-record full-churn table. -/
theorem C5_full_churn_collapse_witness :
    ({ cohort_month := "2021-12", months_since_acquisition := 0,
       customers_remaining := ((cohortGroup exDfFullChurn "2021-12").length : ℤ) } :
        CohortRetentionPoint) ∈ retention_records exDfFullChurn ∧
    (∀ m, 1 ≤ m → m ≤ 12 →
      ({ cohort_month := "2021-12", months_since_acquisition := m,
         customers_remaining := 0 } : CohortRetentionPoint) ∈
        retention_records exDfFullChurn) ∧
    ∀ p ∈ retention_records exDfFullChurn, p.cohort_month = "2021-12" →
      (p.months_since_acquisition = 0 →
        p.customers_remaining = ((cohortGroup exDfFullChurn "2021-12").length : ℤ)) ∧
      (1 ≤ p.months_since_acquisition → p.customers_remaining = 0) :=
  C5_full_churn_collapse exDfFullChurn "2021-12" (by decide) avg_churn_exDfFullChurn

/-! ### Claim C3: monotonicity, its counterexample and its amendment -/

/-- A one-record cohort with the malformed churn rate -1 (cohort `"2020-01"`):
the script does not validate churn rates, and a negative rate makes the decay
factor exceed 1, so the simulated retention grows. -/
def recNegChurn : CustomerRecord :=
  { customer_id := 9, acquisition_channel := "Referral", region := "Europe",
    year := 2020, month := 1, arpu := 150, gross_margin := 1,
    churn_rate := -1, churn_rate_adj := 0, marketing_spend := 90 }

def exDfNegChurn : List CustomerRecord := [recNegChurn]

theorem cohortGroup_exDfNegChurn : cohortGroup exDfNegChurn "2020-01" = exDfNegChurn := by
  apply List.filter_eq_self.mpr
  intro r hr
  rw [List.mem_singleton.mp hr]
  decide

theorem avg_churn_exDfNegChurn : avg_churn (cohortGroup exDfNegChurn "2020-01") = -1 := by
  rw [cohortGroup_exDfNegChurn]
  simp [avg_churn, mean, exDfNegChurn, recNegChurn]

/-- **C3, counterexample.** The claim's unconditional monotonicity fails on the
table `exDfNegChurn` (one record with churn rate -1): the cohort's month-0
count is 1 but its month-1 count is 2. -/
theorem C3_counterexample :
    ¬ (∀ p ∈ retention_records exDfNegChurn, ∀ q ∈ retention_records exDfNegChurn,
        p.cohort_month = q.cohort_month →
        p.months_since_acquisition < q.months_since_acquisition →
        q.customers_remaining ≤ p.customers_remaining) := by
  intro h
  have hv0 : ratTrunc (((cohortGroup exDfNegChurn "2020-01").length : ℚ) *
      (1 - avg_churn (cohortGroup exDfNegChurn "2020-01")) ^ 0) = 1 := by
    rw [avg_churn_exDfNegChurn, cohortGroup_exDfNegChurn, ratTrunc_eq_floor (by norm_num [exDfNegChurn])]
    norm_num [exDfNegChurn]
  have hv1 : ratTrunc (((cohortGroup exDfNegChurn "2020-01").length : ℚ) *
      (1 - avg_churn (cohortGroup exDfNegChurn "2020-01")) ^ 1) = 2 := by
    rw [avg_churn_exDfNegChurn, cohortGroup_exDfNegChurn, ratTrunc_eq_floor (by norm_num [exDfNegChurn])]
    norm_num [exDfNegChurn]
  have hp := retention_point_mem exDfNegChurn "2020-01" 0
    (by decide) (by norm_num)
  have hq := retention_point_mem exDfNegChurn "2020-01" 1
    (by decide) (by norm_num)
  rw [hv0] at hp
  rw [hv1] at hq
  have := h _ hp _ hq rfl (by norm_num)
  norm_num at this

/-- **C3 (amended).** For tables whose churn rates all lie in `[0, 1]` — the
spec's own data-model range — retention counts are non-increasing in the month
within each cohort. -/
theorem C3_monotone (df : List CustomerRecord)
    (hvalid : ∀ r ∈ df, 0 ≤ r.churn_rate ∧ r.churn_rate ≤ 1)
    (p q : CohortRetentionPoint)
    (hp : p ∈ retention_records df) (hq : q ∈ retention_records df)
    (hcoh : p.cohort_month = q.cohort_month)
    (hmn : p.months_since_acquisition < q.months_since_acquisition) :
    q.customers_remaining ≤ p.customers_remaining := by
  obtain ⟨hkp, _, hvp⟩ := retention_mem_spec hp
  obtain ⟨_, _, hvq⟩ := retention_mem_spec hq
  rw [← hcoh] at hvq
  have hsub : ∀ r ∈ cohortGroup df p.cohort_month, r ∈ df :=
    fun r hr => (List.mem_filter.mp hr).1
  have h0 : 0 ≤ avg_churn (cohortGroup df p.cohort_month) :=
    avg_churn_nonneg (fun r hr => (hvalid r (hsub r hr)).1)
  have h1 : avg_churn (cohortGroup df p.cohort_month) ≤ 1 :=
    avg_churn_le_one (fun r hr => (hvalid r (hsub r hr)).2)
  have hbase0 : (0:ℚ) ≤ 1 - avg_churn (cohortGroup df p.cohort_month) := by linarith
  have hbase1 : 1 - avg_churn (cohortGroup df p.cohort_month) ≤ 1 := by linarith
  rw [hvp, hvq]
  apply ratTrunc_mono
  · positivity
  · refine mul_le_mul_of_nonneg_left ?_ (by positivity)
    exact pow_le_pow_of_le_one hbase0 hbase1 hmn.le

/-- Witness for the amended C3 on the 100-record example table: month 3
retains no more customers (72) than month 0 (100). -/
theorem C3_monotone_witness :
    (⟨"2023-01", 3, 72⟩ : CohortRetentionPoint).customers_remaining ≤
      (⟨"2023-01", 0, 100⟩ : CohortRetentionPoint).customers_remaining := by
  have hv0 : ratTrunc (((cohortGroup exDf100 "2023-01").length : ℚ) *
      (1 - avg_churn (cohortGroup exDf100 "2023-01")) ^ 0) = 100 := by
    rw [length_exDf100, avg_churn_exDf100, ratTrunc_eq_floor (by norm_num)]
    norm_num
  have hv3 : ratTrunc (((cohortGroup exDf100 "2023-01").length : ℚ) *
      (1 - avg_churn (cohortGroup exDf100 "2023-01")) ^ 3) = 72 := by
    rw [length_exDf100, avg_churn_exDf100, ratTrunc_eq_floor (by norm_num)]
    norm_num
  have hp := retention_point_mem exDf100 "2023-01" 0
    (by rw [cohortKeys_exDf100]; simp) (by norm_num)
  have hq := retention_point_mem exDf100 "2023-01" 3
    (by rw [cohortKeys_exDf100]; simp) (by norm_num)
  rw [hv0] at hp
  rw [hv3] at hq
  exact C3_monotone exDf100
    (fun r hr => by rw [List.eq_of_mem_replicate hr]; norm_num [rec2023])
    _ _ hp hq rfl (by norm_num)

/-! ### Claims C6 and C7 -/

theorem adjustRecord_churn_rate (r : CustomerRecord) :
    (adjustRecord r).churn_rate = r.churn_rate := rfl

theorem adjustRecord_cohort_month (r : CustomerRecord) :
    cohort_month (adjustRecord r) = cohort_month r := rfl

theorem cohortKeys_replaceZeroChurn (df : List CustomerRecord) :
    cohortKeys (replaceZeroChurn df) = cohortKeys df := by
  have h : cohort_month ∘ adjustRecord = cohort_month := funext fun r => rfl
  simp [cohortKeys, replaceZeroChurn, List.map_map, h]

theorem cohortGroup_replaceZeroChurn (df : List CustomerRecord) (k : String) :
    cohortGroup (replaceZeroChurn df) k = replaceZeroChurn (cohortGroup df k) := by
  simp only [cohortGroup, replaceZeroChurn]
  rw [List.filter_map]
  rfl

theorem avg_churn_replaceZeroChurn (g : List CustomerRecord) :
    avg_churn (replaceZeroChurn g) = avg_churn g := by
  simp only [avg_churn, replaceZeroChurn, List.map_map]
  rfl

theorem retentionCurve_congr {k : String} {g g' : List CustomerRecord}
    (hlen : g.length = g'.length) (havg : avg_churn g = avg_churn g') :
    retentionCurve k g = retentionCurve k g' := by
  simp [retentionCurve, hlen, havg]

/-- **C6.** `avg_churn` is the mean of the raw `churn_rate` column, and the
retention simulation is unchanged by applying the `0 → 0.0001` churn
substitution (which writes only the `churn_rate_adj` column). -/
theorem C6_simulator_uses_raw_churn (df : List CustomerRecord) :
    (∀ g : List CustomerRecord, avg_churn g = mean (g.map fun r => r.churn_rate)) ∧
    retention_records (replaceZeroChurn df) = retention_records df := by
  refine ⟨fun g => rfl, ?_⟩
  unfold retention_records
  rw [cohortKeys_replaceZeroChurn]
  apply List.flatMap_congr
  intro k _
  rw [cohortGroup_replaceZeroChurn]
  exact retentionCurve_congr (by simp [replaceZeroChurn]) (avg_churn_replaceZeroChurn _)

/-- **C7.** Per-customer LTV after the substitution step equals
`arpu * gross_margin` divided by the adjusted churn rate (0 replaced by
0.0001); a record with churn 0 gets the same LTV as the same record with
churn 0.0001; and the divisor is never 0. -/
theorem C7_ltv_zero_churn_guard (r : CustomerRecord) :
    ltv (adjustRecord r) =
      r.arpu * r.gross_margin / (if r.churn_rate = 0 then 0.0001 else r.churn_rate) ∧
    ltv (adjustRecord { r with churn_rate := 0 }) =
      ltv (adjustRecord { r with churn_rate := 0.0001 }) ∧
    (adjustRecord r).churn_rate_adj ≠ 0 := by
  refine ⟨rfl, ?_, ?_⟩
  · simp only [ltv, adjustRecord]
    norm_num
  · simp only [adjustRecord]
    split
    · norm_num
    · assumption

/-! ### Claim C10 -/

/-- Two records sharing `customer_id = 5` in cohort `"2024-03"`. -/
def recDupA : CustomerRecord :=
  { customer_id := 5, acquisition_channel := "Google Ads", region := "Asia",
    year := 2024, month := 3, arpu := 160, gross_margin := 1,
    churn_rate := 0, churn_rate_adj := 0, marketing_spend := 100 }

def recDupB : CustomerRecord :=
  { customer_id := 5, acquisition_channel := "Meta Ads", region := "Asia",
    year := 2024, month := 3, arpu := 161, gross_margin := 1,
    churn_rate := 0, churn_rate_adj := 0, marketing_spend := 101 }

def exDfDup : List CustomerRecord := [recDupA, recDupB]

/-- **C10.** The month-0 retention count of a cohort is its number of rows,
while `cohort_sizes` counts distinct customer ids: with a duplicated id the
reported size is strictly below the month-0 count, and with unique ids the two
agree. -/
theorem C10_cohort_sizes_vs_rows (df : List CustomerRecord) (k : String)
    (hk : k ∈ cohortKeys df) :
    ({ cohort_month := k, months_since_acquisition := 0,
       customers_remaining := ((cohortGroup df k).length : ℤ) } :
        CohortRetentionPoint) ∈ retention_records df ∧
    (¬ ((cohortGroup df k).map (·.customer_id)).Nodup →
      (cohort_sizes df k : ℤ) < ((cohortGroup df k).length : ℤ)) ∧
    (((cohortGroup df k).map (·.customer_id)).Nodup →
      cohort_sizes df k = (cohortGroup df k).length) := by
  refine ⟨?_, ?_, ?_⟩
  · have h := retention_point_mem df k 0 hk (by norm_num)
    simpa [ratTrunc_natCast] using h
  · intro hdup
    have hle : (((cohortGroup df k).map (·.customer_id)).dedup).length ≤
        ((cohortGroup df k).map (·.customer_id)).length :=
      (List.dedup_sublist _).length_le
    have hne : (((cohortGroup df k).map (·.customer_id)).dedup).length ≠
        ((cohortGroup df k).map (·.customer_id)).length := by
      intro heq
      exact hdup (((List.dedup_sublist _).eq_of_length heq) ▸ List.nodup_dedup _)
    have := lt_of_le_of_ne hle hne
    rw [List.length_map] at this
    unfold cohort_sizes
    exact_mod_cast this
  · intro hnodup
    unfold cohort_sizes
    rw [List.dedup_eq_self.mpr hnodup, List.length_map]

/-- Witness for C10 on a two-row cohort sharing one customer id. -/
theorem C10_cohort_sizes_vs_rows_witness :
    ({ cohort_month := "2024-03", months_since_acquisition := 0,
       customers_remaining := ((cohortGroup exDfDup "2024-03").length : ℤ) } :
        CohortRetentionPoint) ∈ retention_records exDfDup ∧
    (¬ ((cohortGroup exDfDup "2024-03").map (·.customer_id)).Nodup →
      (cohort_sizes exDfDup "2024-03" : ℤ) <
        ((cohortGroup exDfDup "2024-03").length : ℤ)) ∧
    (((cohortGroup exDfDup "2024-03").map (·.customer_id)).Nodup →
      cohort_sizes exDfDup "2024-03" = (cohortGroup exDfDup "2024-03").length) :=
  C10_cohort_sizes_vs_rows exDfDup "2024-03" (by decide)

/-! ### Claim C8: the merged channel table -/

/-- Channel-level CAC: mean marketing spend of the channel's records. -/
def channelCAC (df : List CustomerRecord) (ch : String) : ℚ :=
  mean ((df.filter fun r => r.acquisition_channel = ch).map (·.marketing_spend))

/-- Channel-level LTV: mean per-customer LTV of the channel's records, the LTV
column having been computed after the churn substitution. -/
def channelLTV (df : List CustomerRecord) (ch : String) : ℚ :=
  mean (((replaceZeroChurn df).filter fun r => r.acquisition_channel = ch).map ltv)

theorem channelKeys_replaceZeroChurn (df : List CustomerRecord) :
    channelKeys (replaceZeroChurn df) = channelKeys df := by
  have h : (fun r : CustomerRecord => r.acquisition_channel) ∘ adjustRecord =
      fun r => r.acquisition_channel := funext fun r => rfl
  simp [channelKeys, replaceZeroChurn, List.map_map, h]

theorem channelKeys_nodup (df : List CustomerRecord) : (channelKeys df).Nodup :=
  List.nodup_dedup _

theorem nodup_filter_eq {α : Type} [DecidableEq α] {l : List α} {a : α}
    (hnd : l.Nodup) (ha : a ∈ l) : l.filter (fun x => x = a) = [a] := by
  induction l with
  | nil => simp at ha
  | cons b t ih =>
      rcases List.nodup_cons.mp hnd with ⟨hbt, hnt⟩
      rcases List.mem_cons.mp ha with rfl | hat
      · rw [List.filter_cons_of_pos (by simp), List.filter_eq_nil_iff.mpr]
        intro x hx
        simp only [decide_eq_true_eq]
        exact fun hxa => hbt (hxa ▸ hx)
      · have hba : b ≠ a := fun hba => hbt (hba ▸ hat)
        rw [List.filter_cons_of_neg (by simpa using hba), ih hnt hat]

theorem flatMap_singleton_eq_map {α β : Type} (l : List α) (h : α → β) :
    (l.flatMap fun x => [h x]) = l.map h := by
  induction l with
  | nil => rfl
  | cons a t ih => simp [List.flatMap_cons, ih]

/-- The fully evaluated shape of the merged channel table: one row per distinct
channel, carrying that channel's mean LTV, mean spend and their quotient. -/
theorem ltv_cac_eq (df : List CustomerRecord) :
    ltv_cac df = (channelKeys df).map fun ch =>
      ⟨ch, channelLTV df ch, channelCAC df ch, channelLTV df ch / channelCAC df ch⟩ := by
  unfold ltv_cac mergeOnChannel ltv_by_channel cac_by_channel
  rw [channelKeys_replaceZeroChurn, List.flatMap_map]
  have hstep : ∀ ch ∈ channelKeys df,
      ((((channelKeys df).map fun c =>
          (c, mean ((df.filter fun r => r.acquisition_channel = c).map (·.marketing_spend)))).filter
            fun cr => cr.1 = ch) = [(ch, channelCAC df ch)]) := by
    intro ch hch
    rw [List.filter_map]
    have : ((channelKeys df).filter
        ((fun cr : String × ℚ => decide (cr.1 = ch)) ∘ fun c =>
          (c, mean ((df.filter fun r => r.acquisition_channel = c).map (·.marketing_spend))))) =
        (channelKeys df).filter fun x => x = ch := rfl
    rw [this, nodup_filter_eq (channelKeys_nodup df) hch]
    rfl
  rw [List.flatMap_congr (l := channelKeys df) (g := fun ch =>
      [(ch, channelLTV df ch, channelCAC df ch)]) ?_]
  · rw [flatMap_singleton_eq_map, List.map_map]
    rfl
  · intro ch hch
    simp only [Function.comp]
    rw [hstep ch hch]
    rfl

/-- **C8.** Every distinct acquisition channel of the input yields exactly one
row of the merged table, and that row's `ltv_cac_ratio` is exactly the
channel's mean LTV divided by the channel's mean marketing spend. -/
theorem C8_ratio_per_channel (df : List CustomerRecord) (ch : String)
    (hch : ch ∈ df.map (·.acquisition_channel)) :
    (ltv_cac df).filter (fun row => row.acquisition_channel = ch) =
      [⟨ch, channelLTV df ch, channelCAC df ch,
        channelLTV df ch / channelCAC df ch⟩] := by
  rw [ltv_cac_eq, List.filter_map]
  have hmem : ch ∈ channelKeys df := List.mem_dedup.mpr hch
  have : ((channelKeys df).filter
      ((fun row : LtvCacRow => decide (row.acquisition_channel = ch)) ∘ fun c =>
        ⟨c, channelLTV df c, channelCAC df c, channelLTV df c / channelCAC df c⟩)) =
      (channelKeys df).filter fun x => x = ch := rfl
  rw [this, nodup_filter_eq (channelKeys_nodup df) hmem]
  rfl

/-- Witness for C8 on a concrete two-channel table. -/
theorem C8_ratio_per_channel_witness :
    (ltv_cac exDfDup).filter (fun row => row.acquisition_channel = "Google Ads") =
      [⟨"Google Ads", channelLTV exDfDup "Google Ads", channelCAC exDfDup "Google Ads",
        channelLTV exDfDup "Google Ads" / channelCAC exDfDup "Google Ads"⟩] :=
  C8_ratio_per_channel exDfDup "Google Ads" (by decide)

/-! ### Claim C9: the cohort label determines, and is determined by, year and month -/

/-- Inverse of `digitChar` on decimal digits. -/
def charDigit (c : Char) : Nat := c.toNat - 48

/-- The number denoted by a digit string (most significant digit first). -/
def digitsVal : List Char → Nat
  | [] => 0
  | c :: cs => charDigit c * 10 ^ cs.length + digitsVal cs

theorem charDigit_digitChar {d : Nat} (hd : d < 10) : charDigit (digitChar d) = d := by
  interval_cases d <;> rfl

theorem digitsVal_append_singleton (l : List Char) (c : Char) :
    digitsVal (l ++ [c]) = digitsVal l * 10 + charDigit c := by
  induction l with
  | nil => simp [digitsVal]
  | cons a t ih =>
      have hlen : (t ++ [c]).length = t.length + 1 := by simp
      simp only [List.cons_append, digitsVal, List.append_eq, ih, hlen]
      ring

theorem digitsVal_natStrAux :
    ∀ fuel n : Nat, n < 10 ^ fuel → digitsVal (natStrAux fuel n) = n := by
  intro fuel
  induction fuel with
  | zero =>
      intro n hn
      interval_cases n
      rfl
  | succ fuel ih =>
      intro n hn
      by_cases h10 : n < 10
      · simp [natStrAux, h10, digitsVal, charDigit_digitChar h10]
      · rw [natStrAux, if_neg h10, digitsVal_append_singleton,
          ih (n / 10) ((Nat.div_lt_iff_lt_mul (by norm_num)).mpr (by rw [← pow_succ]; exact hn)),
          charDigit_digitChar (Nat.mod_lt n (by norm_num))]
        omega

/-- Python `str()` is injective on natural numbers. -/
theorem natStr_inj {a b : Nat} (h : natStr a = natStr b) : a = b := by
  have hdata : natStrAux (a + 1) a = natStrAux (b + 1) b := congrArg String.data h
  have ha : a < 10 ^ (a + 1) :=
    lt_of_lt_of_le (Nat.lt_pow_self (by norm_num) a)
      (Nat.pow_le_pow_right (by norm_num) (Nat.le_succ a))
  have hb : b < 10 ^ (b + 1) :=
    lt_of_lt_of_le (Nat.lt_pow_self (by norm_num) b)
      (Nat.pow_le_pow_right (by norm_num) (Nat.le_succ b))
  calc a = digitsVal (natStrAux (a + 1) a) := (digitsVal_natStrAux _ a ha).symm
    _ = digitsVal (natStrAux (b + 1) b) := by rw [hdata]
    _ = b := digitsVal_natStrAux _ b hb

/-- Data-level injectivity of `natStr`. -/
theorem natStr_data_inj {a b : Nat} (h : (natStr a).data = (natStr b).data) : a = b := by
  have hdata : natStrAux (a + 1) a = natStrAux (b + 1) b := h
  have ha : a < 10 ^ (a + 1) :=
    lt_of_lt_of_le (Nat.lt_pow_self (by norm_num) a)
      (Nat.pow_le_pow_right (by norm_num) (Nat.le_succ a))
  have hb : b < 10 ^ (b + 1) :=
    lt_of_lt_of_le (Nat.lt_pow_self (by norm_num) b)
      (Nat.pow_le_pow_right (by norm_num) (Nat.le_succ b))
  calc a = digitsVal (natStrAux (a + 1) a) := (digitsVal_natStrAux _ a ha).symm
    _ = digitsVal (natStrAux (b + 1) b) := by rw [hdata]
    _ = b := digitsVal_natStrAux _ b hb

theorem mem_natStrAux {fuel n : Nat} {c : Char} (hc : c ∈ natStrAux fuel n) :
    ∃ d, d < 10 ∧ c = digitChar d := by
  induction fuel generalizing n with
  | zero => simp [natStrAux] at hc
  | succ fuel ih =>
      rw [natStrAux] at hc
      by_cases h10 : n < 10
      · rw [if_pos h10] at hc
        exact ⟨n, h10, List.mem_singleton.mp hc⟩
      · rw [if_neg h10] at hc
        rcases List.mem_append.mp hc with h | h
        · exact ih h
        · exact ⟨n % 10, Nat.mod_lt _ (by norm_num), List.mem_singleton.mp h⟩

theorem digitChar_ne_dash {d : Nat} (hd : d < 10) : digitChar d ≠ '-' := by
  interval_cases d <;> decide

theorem dash_not_mem_natStr (n : Nat) : '-' ∉ (natStr n).data := by
  intro h
  have h' : '-' ∈ natStrAux (n + 1) n := h
  rcases mem_natStrAux h' with ⟨d, hd, hc⟩
  exact digitChar_ne_dash hd hc.symm

/-- A positive number below the fuel bound prints with a nonzero leading digit. -/
theorem natStrAux_head_ne_zero :
    ∀ fuel n : Nat, 1 ≤ n → n < 10 ^ fuel →
      ∃ a t, natStrAux fuel n = a :: t ∧ a ≠ '0' := by
  intro fuel
  induction fuel with
  | zero =>
      intro n h1 h0
      simp only [pow_zero] at h0
      omega
  | succ fuel ih =>
      intro n h1 hn
      by_cases h10 : n < 10
      · refine ⟨digitChar n, [], by rw [natStrAux, if_pos h10], ?_⟩
        interval_cases n <;> decide
      · rcases ih (n / 10) ((Nat.one_le_div_iff (by norm_num)).mpr (by omega))
          ((Nat.div_lt_iff_lt_mul (by norm_num)).mpr (by rw [← pow_succ]; exact hn)) with
          ⟨a, t, hat, ha⟩
        refine ⟨a, t ++ [digitChar (n % 10)], ?_, ha⟩
        rw [natStrAux, if_neg h10, hat]
        rfl

theorem natStr_data_small {m : Nat} (hm : m < 10) : (natStr m).data = [digitChar m] := by
  show natStrAux (m + 1) m = [digitChar m]
  rw [natStrAux, if_pos hm]

theorem natStr_data_ge10 {m : Nat} (hm : 10 ≤ m) :
    ∃ a t, (natStr m).data = a :: t ∧ a ≠ '0' ∧ t ≠ [] := by
  have h1 : 1 ≤ m / 10 := (Nat.one_le_div_iff (by norm_num)).mpr hm
  have hb : m / 10 < 10 ^ m :=
    lt_of_le_of_lt (Nat.div_le_self m 10) (Nat.lt_pow_self (by norm_num) m)
  rcases natStrAux_head_ne_zero m (m / 10) h1 hb with ⟨a, t, hat, ha⟩
  refine ⟨a, t ++ [digitChar (m % 10)], ?_, ha, by simp⟩
  show natStrAux (m + 1) m = _
  rw [natStrAux, if_neg (by omega), hat]
  rfl

theorem zfill2_natStr_small {m : Nat} (hm : m < 10) :
    (zfill2 (natStr m)).data = ['0', digitChar m] := by
  have hd : (natStr m).data = [digitChar m] := natStr_data_small hm
  have hlen : (natStr m).length = 1 := by
    rw [String.length, hd]
    rfl
  rw [zfill2, if_pos (by omega), hlen, hd]
  rfl

theorem zfill2_natStr_ge10 {m : Nat} (hm : 10 ≤ m) : zfill2 (natStr m) = natStr m := by
  rcases natStr_data_ge10 hm with ⟨a, t, hat, _, ht⟩
  have hlen : (natStr m).length = t.length + 1 := by
    rw [String.length, hat]
    rfl
  have htpos : 1 ≤ t.length := List.length_pos.mpr ht
  rw [zfill2, if_neg (by omega)]

theorem zfill2_natStr_inj {m1 m2 : Nat}
    (h : (zfill2 (natStr m1)).data = (zfill2 (natStr m2)).data) : m1 = m2 := by
  by_cases h1 : m1 < 10 <;> by_cases h2 : m2 < 10
  · rw [zfill2_natStr_small h1, zfill2_natStr_small h2] at h
    have hd : digitChar m1 = digitChar m2 := by
      injection h with h' h''
      exact List.head_eq_of_cons_eq h''
    calc m1 = charDigit (digitChar m1) := (charDigit_digitChar h1).symm
      _ = charDigit (digitChar m2) := by rw [hd]
      _ = m2 := charDigit_digitChar h2
  · exfalso
    rw [zfill2_natStr_small h1, zfill2_natStr_ge10 (by omega)] at h
    rcases natStr_data_ge10 (show 10 ≤ m2 by omega) with ⟨a, t, hat, ha, _⟩
    rw [hat] at h
    exact ha (List.head_eq_of_cons_eq h.symm)
  · exfalso
    rw [zfill2_natStr_small h2, zfill2_natStr_ge10 (by omega)] at h
    rcases natStr_data_ge10 (show 10 ≤ m1 by omega) with ⟨a, t, hat, ha, _⟩
    rw [hat] at h
    exact ha (List.head_eq_of_cons_eq h)
  · rw [zfill2_natStr_ge10 (by omega), zfill2_natStr_ge10 (by omega)] at h
    exact natStr_data_inj h

/-- Lists splitting at a separator char absent from both prefixes split uniquely. -/
theorem append_dash_inj :
    ∀ (l1 l2 r1 r2 : List Char), '-' ∉ l1 → '-' ∉ l2 →
      l1 ++ '-' :: r1 = l2 ++ '-' :: r2 → l1 = l2 ∧ r1 = r2 := by
  intro l1
  induction l1 with
  | nil =>
      intro l2 r1 r2 _ hl2 h
      cases l2 with
      | nil => simpa using h
      | cons b t =>
          exfalso
          simp only [List.nil_append, List.cons_append, List.cons.injEq] at h
          exact hl2 (h.1 ▸ List.mem_cons_self b t)
  | cons a t ih =>
      intro l2 r1 r2 hl1 hl2 h
      cases l2 with
      | nil =>
          exfalso
          simp only [List.cons_append, List.nil_append, List.cons.injEq] at h
          exact hl1 (h.1 ▸ List.mem_cons_self a t)
      | cons b t2 =>
          simp only [List.cons_append, List.cons.injEq] at h
          rcases ih t2 r1 r2 (fun hm => hl1 (List.mem_cons_of_mem a hm))
            (fun hm => hl2 (List.mem_cons_of_mem b hm)) h.2 with ⟨hl, hr⟩
          exact ⟨by rw [h.1, hl], hr⟩

theorem cohort_month_data (r : CustomerRecord) :
    (cohort_month r).data =
      (natStr r.year).data ++ '-' :: (zfill2 (natStr r.month)).data := by
  show ((natStr r.year ++ "-") ++ zfill2 (natStr r.month)).data = _
  rw [String.data_append, String.data_append,
    show ("-" : String).data = ['-'] from rfl, List.append_assoc]
  rfl

/-- The cohort label of a record is determined by, and determines, the pair
(year, month). -/
theorem cohort_month_eq_iff (r1 r2 : CustomerRecord) :
    cohort_month r1 = cohort_month r2 ↔ r1.year = r2.year ∧ r1.month = r2.month := by
  constructor
  · intro h
    have hd := congrArg String.data h
    rw [cohort_month_data, cohort_month_data] at hd
    rcases append_dash_inj _ _ _ _ (dash_not_mem_natStr _) (dash_not_mem_natStr _) hd with
      ⟨hy, hm⟩
    exact ⟨natStr_data_inj hy, zfill2_natStr_inj (by rw [hm])⟩
  · rintro ⟨hy, hm⟩
    rw [cohort_month, cohort_month, hy, hm]

theorem avg_churn_perm {g1 g2 : List CustomerRecord} (h : g1.Perm g2) :
    avg_churn g1 = avg_churn g2 := by
  unfold avg_churn mean
  rw [(h.map _).sum_eq, (h.map (·.churn_rate)).length_eq]

theorem retention_records_perm {df1 df2 : List CustomerRecord} (h : df1.Perm df2) :
    (retention_records df1).Perm (retention_records df2) := by
  have hkeys : (cohortKeys df1).Perm (cohortKeys df2) := (h.map _).dedup
  have hcurves : ∀ k ∈ cohortKeys df1,
      retentionCurve k (cohortGroup df1 k) = retentionCurve k (cohortGroup df2 k) := by
    intro k _
    have hg : (cohortGroup df1 k).Perm (cohortGroup df2 k) := h.filter _
    exact retentionCurve_congr hg.length_eq (avg_churn_perm hg)
  unfold retention_records
  rw [List.flatMap_congr hcurves]
  exact hkeys.flatMap_right _

/-- **C9.** Two records of a table lie in a common cohort group exactly when
they share signup year and month, and the multiset of emitted retention points
is invariant under permuting the input records. -/
theorem C9_grouping_and_permutation :
    (∀ (df : List CustomerRecord) (r1 r2 : CustomerRecord), r1 ∈ df → r2 ∈ df →
      ((∃ k, r1 ∈ cohortGroup df k ∧ r2 ∈ cohortGroup df k) ↔
        (r1.year = r2.year ∧ r1.month = r2.month))) ∧
    ∀ df1 df2 : List CustomerRecord, df1.Perm df2 →
      (retention_records df1 : Multiset CohortRetentionPoint) =
        (retention_records df2 : Multiset CohortRetentionPoint) := by
  constructor
  · intro df r1 r2 h1 h2
    constructor
    · rintro ⟨k, hk1, hk2⟩
      have e1 : cohort_month r1 = k := by
        have := (List.mem_filter.mp hk1).2
        simpa using this
      have e2 : cohort_month r2 = k := by
        have := (List.mem_filter.mp hk2).2
        simpa using this
      exact (cohort_month_eq_iff r1 r2).mp (e1.trans e2.symm)
    · intro hym
      refine ⟨cohort_month r1, ?_, ?_⟩
      · exact List.mem_filter.mpr ⟨h1, by simp⟩
      · exact List.mem_filter.mpr ⟨h2, by
          simp [(cohort_month_eq_iff r1 r2).mpr hym]⟩
  · intro df1 df2 h
    exact_mod_cast Quot.sound (retention_records_perm h)

/-- Witness for C9: swapping the two rows of a concrete table leaves the
multiset of retention points unchanged. -/
theorem C9_grouping_and_permutation_witness :
    (retention_records [recDupB, recDupA] : Multiset CohortRetentionPoint) =
      (retention_records [recDupA, recDupB] : Multiset CohortRetentionPoint) :=
  C9_grouping_and_permutation.2 _ _ (List.Perm.swap recDupA recDupB [])

end CacLtv
